import Mathlib

/-!
Shallow embedding of the personal-finance client's business logic:

* currency conversion and the exchange-rate table (src/lib/utils.ts),
* the currency context convertAmount (src/components/ui/currency-selector.tsx),
* dashboard category aggregation and net worth (src/pages/Dashboard.tsx),
* the supabase service wrappers (src/lib/services/assetService.ts,
  debtService.ts, netWorthService.ts, authService.ts).

JS numbers are modelled as rationals; JS objects used as string-keyed maps
are modelled as functions into Option, or as association lists when
insertion order matters; asynchronous remote calls are modelled by passing
the outcome of the remote request as an explicit argument.
-/

/-- A JS object used as a map from currency code to number. -/
abbrev Rates : Type := String → Option ℚ

/-- Currency code constant. -/
def USD : String := "USD"

/-- Currency code constant. -/
def EUR : String := "EUR"

/-- Currency code constant. -/
def RON : String := "RON"

/-- Currency code constant (not present in the default rate table). -/
def GBP : String := "GBP"

/-- Currency code constant (not present in the default rate table). -/
def JPY : String := "JPY"

/-- Asset category constant. -/
def cash : String := "cash"

/-- The static fallback table defaultExchangeRates from src/lib/utils.ts:
Braces USD 1, EUR 0.92, RON 4.56. -/
def defaultExchangeRates : Rates := fun c =>
  if c = USD then some 1
  else if c = EUR then some (92/100)
  else if c = RON then some (456/100)
  else none

/-- Initial value of the mutable module-level exchangeRates table:
a copy of the defaults. -/
def exchangeRates : Rates := defaultExchangeRates

/-- Number(x.toFixed(2)) from src/lib/utils.ts: rounding to 2 decimal
places, ties rounded away from zero (the toFixed rule: sign is taken out,
then the closest multiple of 0.01 is chosen, ties upward). -/
def roundTo2 (x : ℚ) : ℚ :=
  if 0 ≤ x then (⌊x * 100 + 1/2⌋ : ℚ) / 100
  else -((⌊(-x) * 100 + 1/2⌋ : ℚ) / 100)

/-- The expression exchangeRates[c] || 1 from convertCurrency: the stored
rate when present and nonzero (0 is falsy in JS), else 1. -/
def rateOr1 (rates : Rates) (c : String) : ℚ :=
  match rates c with
  | some r => if r = 0 then 1 else r
  | none => 1

/-- convertCurrency from src/lib/utils.ts, with the rate table passed
explicitly. Identity when the codes coincide; otherwise divide by the
source rate (into USD), multiply by the target rate, and round to 2
decimal places. -/
def convertCurrency (rates : Rates) (amount : ℚ) (fromCurrency toCurrency : String) : ℚ :=
  if fromCurrency = toCurrency then amount
  else
    let fromRate := rateOr1 rates fromCurrency
    let toRate := rateOr1 rates toCurrency
    let amountInUSD := amount / fromRate
    let amountInTargetCurrency := amountInUSD * toRate
    roundTo2 amountInTargetCurrency

/-- convertAmount from the CurrencyProvider in
src/components/ui/currency-selector.tsx; target is the selected
display currency's code. -/
def convertAmount (rates : Rates) (target : String) (amount : ℚ) (fromCurrency : String) : ℚ :=
  if fromCurrency = target then amount
  else convertCurrency rates amount fromCurrency target

/-- FinancialEntry from src/types/financial.ts (Asset and Debt are
aliases of it). -/
structure FinancialEntry where
  id : String
  name : String
  category : String
  value : ℚ
  last_updated : String
  comments : Option String
  currency : String
  user_id : Option String
deriving DecidableEq

/-- The record stored per category by the Dashboard aggregation loop:
a running converted value and the first entry's original currency. -/
structure CategorySum where
  value : ℚ
  currency : String
deriving DecidableEq

/-- One forEach step of the Dashboard category aggregation: add v to the
category's running value, creating the key (at the end, as JS object
insertion does) with the entry's currency if absent. -/
def bumpCategory (c cur : String) (v : ℚ) : List (String × CategorySum) → List (String × CategorySum)
  | [] => [(c, ⟨v, cur⟩)]
  | (k, s) :: rest =>
    if k = c then (k, ⟨s.value + v, s.currency⟩) :: rest
    else (k, s) :: bumpCategory c cur v rest

/-- The assetCategorySums / debtCategorySums loop from
src/pages/Dashboard.tsx: fold the entries, converting each value to the
display currency and accumulating per category. -/
def categorySums (rates : Rates) (target : String) (entries : List FinancialEntry) :
    List (String × CategorySum) :=
  entries.foldl
    (fun sums e => bumpCategory e.category e.currency (convertAmount rates target e.value e.currency) sums)
    []

/-- Value stored under a category key (0 when the key is absent). -/
def valueAt : List (String × CategorySum) → String → ℚ
  | [], _ => 0
  | (k, s) :: rest, c => if k = c then s.value else valueAt rest c

/-- The total displayed for one category on the dashboard:
assetCategorySums[category].value. -/
def displayedCategoryTotal (rates : Rates) (target : String)
    (entries : List FinancialEntry) (c : String) : ℚ :=
  valueAt (categorySums rates target entries) c

/-- Object.values(categorySums).reduce((sum, v) => sum + v.value, 0) from
src/pages/Dashboard.tsx. -/
def categoryTotal (sums : List (String × CategorySum)) : ℚ :=
  (sums.map fun p => p.2.value).sum

/-- The assetTotal / debtTotal computation of Dashboard.tsx. -/
def dashboardTotal (rates : Rates) (target : String) (entries : List FinancialEntry) : ℚ :=
  categoryTotal (categorySums rates target entries)

/-- setNetWorth(assetTotal - debtTotal) from src/pages/Dashboard.tsx. -/
def dashboardNetWorth (rates : Rates) (target : String)
    (assets debts : List FinancialEntry) : ℚ :=
  dashboardTotal rates target assets - dashboardTotal rates target debts

/-- Outcome of the network request made by fetchExchangeRates: a body with
a rates mapping, a body without one (data or data.rates falsy), or a
thrown fetch/parse error. -/
inductive FetchOutcome where
  | ok (rates : Rates)
  | noRates
  | err

/-- The object spread braces USD 1, ...data.rates from
src/lib/utils.ts line 43: spread entries override the earlier USD entry. -/
def fetchedTable (rates : Rates) : Rates := fun c =>
  match rates c with
  | some r => some r
  | none => if c = USD then some 1 else none

/-- fetchExchangeRates from src/lib/utils.ts in state-passing form: takes
the current exchangeRates table and the request outcome, returns the new
table together with the function's return value. On success the table is
replaced wholesale; on a missing rates field or a thrown error the table
is untouched and defaultExchangeRates is returned. -/
def fetchExchangeRates (st : Rates) : FetchOutcome → Rates × Rates
  | FetchOutcome.ok rates => (fetchedTable rates, fetchedTable rates)
  | FetchOutcome.noRates => (st, defaultExchangeRates)
  | FetchOutcome.err => (st, defaultExchangeRates)

/-- A fetched rates mapping that itself contains a USD entry (0.5). -/
def usdOverrideRates : Rates := fun c =>
  if c = USD then some (1/2) else if c = EUR then some (9/10) else none

/-- The rate table of the spec's concrete aggregation example:
braces USD 1, EUR 0.92. -/
def exampleRates : Rates := fun c =>
  if c = USD then some 1 else if c = EUR then some (92/100) else none

/-- Entry of the spec's example: category cash, value 100, currency USD. -/
def entryCashUSD : FinancialEntry := ⟨"a1", "wallet", cash, 100, "", none, USD, none⟩

/-- Entry of the spec's example: category cash, value 50, currency EUR. -/
def entryCashEUR : FinancialEntry := ⟨"a2", "wallet eur", cash, 50, "", none, EUR, none⟩

/-- Error object of the supabase client: a code and a message. -/
structure SupabaseError where
  code : String
  message : String
deriving DecidableEq

/-- The authenticated user object returned by the auth endpoints. -/
structure AuthUser where
  id : String
  email : String
deriving DecidableEq

/-- The data object returned by signInWithPassword / signUp: a possibly
null user and a possibly null session token. -/
structure AuthData where
  user : Option AuthUser
  session : Option String
deriving DecidableEq

/-- Tail of ensureUserInTable (src/lib/services/authService.ts): if no
existing row was found, insert one and throw the insert error if any. -/
def ensureUserInTableInsert (existingUser : Option String)
    (insertError : Option SupabaseError) : Except SupabaseError Unit :=
  match existingUser with
  | some _ => Except.ok ()
  | none =>
      match insertError with
      | some e => Except.error e
      | none => Except.ok ()

/-- ensureUserInTable from src/lib/services/authService.ts, with the
outcomes of the two remote calls passed explicitly: the select single
(row found, and its error whose code PGRST116 means no rows) and the
insert. Throws the check error unless its code is PGRST116, then inserts
when the row is absent. -/
def ensureUserInTable (existingUser : Option String)
    (checkError insertError : Option SupabaseError) : Except SupabaseError Unit :=
  match checkError with
  | some e =>
      if e.code = "PGRST116" then ensureUserInTableInsert existingUser insertError
      else Except.error e
  | none => ensureUserInTableInsert existingUser insertError

/-- signIn from src/lib/services/authService.ts: throws the auth error if
present; otherwise, when a user is present, runs ensureUserInTable inside
try/catch (its outcome is the last argument) and returns the auth data
whether or not that mirroring step failed. -/
def signIn (authError : Option SupabaseError) (data : AuthData)
    (ensureResult : Except SupabaseError Unit) : Except SupabaseError AuthData :=
  match authError with
  | some e => Except.error e
  | none =>
      match data.user with
      | some _ =>
          match ensureResult with
          | Except.ok _ => Except.ok data
          | Except.error _ => Except.ok data
      | none => Except.ok data

/-- signUp from src/lib/services/authService.ts: same catch-and-continue
shape around ensureUserInTable as signIn. -/
def signUp (authError : Option SupabaseError) (data : AuthData)
    (ensureResult : Except SupabaseError Unit) : Except SupabaseError AuthData :=
  match authError with
  | some e => Except.error e
  | none =>
      match data.user with
      | some _ =>
          match ensureResult with
          | Except.ok _ => Except.ok data
          | Except.error _ => Except.ok data
      | none => Except.ok data

/-- Outcome of a supabase list query: data (possibly null) on success, or
an error object. -/
inductive ListResult (α : Type) where
  | ok (data : Option (List α))
  | fail (e : SupabaseError)

/-- NetWorthRecord from src/types/financial.ts. -/
structure NetWorthRecord where
  id : String
  user_id : String
  date : String
  total_assets : ℚ
  total_debts : ℚ
  net_worth : ℚ
  base_currency : String
deriving DecidableEq

/-- getAssets from src/lib/services/assetService.ts: throw the error if
present, else return data || []. -/
def getAssets (r : ListResult FinancialEntry) : Except SupabaseError (List FinancialEntry) :=
  match r with
  | ListResult.fail e => Except.error e
  | ListResult.ok data => Except.ok (data.getD [])

/-- getDebts from src/lib/services/debtService.ts: throw the error if
present, else return data || []. -/
def getDebts (r : ListResult FinancialEntry) : Except SupabaseError (List FinancialEntry) :=
  match r with
  | ListResult.fail e => Except.error e
  | ListResult.ok data => Except.ok (data.getD [])

/-- getNetWorthHistory from src/lib/services/netWorthService.ts: throw the
error if present, else return data || []. -/
def getNetWorthHistory (r : ListResult NetWorthRecord) : Except SupabaseError (List NetWorthRecord) :=
  match r with
  | ListResult.fail e => Except.error e
  | ListResult.ok data => Except.ok (data.getD [])

/-- Claim C5: a failed rate fetch (thrown error, or body without a rates
mapping) leaves the module-level exchangeRates table unchanged, so the
static defaults persist if no fetch ever succeeded; the call still
returns a value (the defaults) rather than propagating the failure. -/
theorem fetchExchangeRates_failure_preserves_table (st : Rates) :
    (fetchExchangeRates st FetchOutcome.noRates).1 = st ∧
    (fetchExchangeRates st FetchOutcome.err).1 = st ∧
    (fetchExchangeRates st FetchOutcome.noRates).2 = defaultExchangeRates ∧
    (fetchExchangeRates st FetchOutcome.err).2 = defaultExchangeRates ∧
    (fetchExchangeRates exchangeRates FetchOutcome.err).1 = defaultExchangeRates :=
  ⟨rfl, rfl, rfl, rfl, rfl⟩

/-- Claim C6 (failing input): after a successful fetch whose rates mapping
itself contains a USD entry of 0.5, the resulting table maps USD to 0.5,
not to 1 — the spread in braces USD 1, ...data.rates lets the fetched
entry override the hardcoded base rate, contradicting the code's own
comment that the base currency is always 1. -/
theorem fetchExchangeRates_usd_not_fixed :
    (fetchExchangeRates defaultExchangeRates (FetchOutcome.ok usdOverrideRates)).1 USD
      = some (1/2) ∧ ((1:ℚ)/2) ≠ 1 := by
  constructor
  · rfl
  · norm_num

/-- Claim C8: when password sign-in (or sign-up) succeeds with a user but
mirroring the identity into the users table fails, the error is swallowed
and the successful auth data is still returned. -/
theorem signIn_swallows_ensure_error (data : AuthData) (u : AuthUser) (e : SupabaseError)
    (h : data.user = some u) :
    signIn none data (Except.error e) = Except.ok data ∧
    signUp none data (Except.error e) = Except.ok data := by
  simp [signIn, signUp, h]

/-- Witness for claim C8: a concrete successful sign-in whose
ensureUserInTable call fails with an insert error still returns ok. -/
theorem signIn_swallows_ensure_error_witness :
    signIn none ⟨some ⟨"u1", "u@e.com"⟩, none⟩
        (ensureUserInTable none none (some ⟨"23505", "duplicate key"⟩)) =
      Except.ok ⟨some ⟨"u1", "u@e.com"⟩, none⟩ ∧
    signUp none ⟨some ⟨"u1", "u@e.com"⟩, none⟩
        (ensureUserInTable none none (some ⟨"23505", "duplicate key"⟩)) =
      Except.ok ⟨some ⟨"u1", "u@e.com"⟩, none⟩ := by
  have h : ensureUserInTable none none (some ⟨"23505", "duplicate key"⟩) =
      Except.error ⟨"23505", "duplicate key"⟩ := rfl
  rw [h]
  exact signIn_swallows_ensure_error ⟨some ⟨"u1", "u@e.com"⟩, none⟩
    ⟨"u1", "u@e.com"⟩ ⟨"23505", "duplicate key"⟩ rfl

/-- Claim C10: the list services never return null — on a successful
remote call whose data is null each returns the empty list, and on any
successful call they return the data list or the empty list. -/
theorem listServices_null_to_empty :
    (∀ d : Option (List FinancialEntry), getAssets (ListResult.ok d) = Except.ok (d.getD [])) ∧
    (∀ d : Option (List FinancialEntry), getDebts (ListResult.ok d) = Except.ok (d.getD [])) ∧
    (∀ d : Option (List NetWorthRecord), getNetWorthHistory (ListResult.ok d) = Except.ok (d.getD [])) ∧
    getAssets (ListResult.ok none) = Except.ok [] ∧
    getDebts (ListResult.ok none) = Except.ok [] ∧
    getNetWorthHistory (ListResult.ok none) = Except.ok [] :=
  ⟨fun _ => rfl, fun _ => rfl, fun _ => rfl, rfl, rfl, rfl⟩

/-- Rounding a real multiple of 1/100 obtained from the floor differs from
the argument by at most half an ulp of the 2-decimal grid. -/
lemma floor_div_bound (x : ℚ) : |(⌊x * 100 + 1/2⌋ : ℚ) / 100 - x| ≤ 1/200 := by
  have h1 : (⌊x * 100 + 1/2⌋ : ℚ) ≤ x * 100 + 1/2 := Int.floor_le _
  have h2 : x * 100 + 1/2 < (⌊x * 100 + 1/2⌋ : ℚ) + 1 := Int.lt_floor_add_one _
  rw [abs_le]
  constructor <;> linarith

/-- roundTo2 moves its argument by at most 0.005. -/
lemma abs_roundTo2_sub (x : ℚ) : |roundTo2 x - x| ≤ 1/200 := by
  rw [roundTo2]
  split_ifs with h
  · exact floor_div_bound x
  · have h3 : -((⌊(-x) * 100 + 1/2⌋ : ℚ) / 100) - x =
        -((⌊(-x) * 100 + 1/2⌋ : ℚ) / 100 - (-x)) := by ring
    rw [h3, abs_neg]
    exact floor_div_bound (-x)

/-- The stored rate is used as is when present and nonzero. -/
lemma rateOr1_of_some (rates : Rates) (c : String) (r : ℚ)
    (h : rates c = some r) (h0 : r ≠ 0) : rateOr1 rates c = r := by
  simp [rateOr1, h, h0]

/-- The effective rate is never zero, whatever the table holds. -/
lemma rateOr1_ne_zero (rates : Rates) (c : String) : rateOr1 rates c ≠ 0 := by
  rcases h : rates c with _ | r
  · simp [rateOr1, h]
  · by_cases h0 : r = 0 <;> simp [rateOr1, h, h0]

/-- Claim C1: when both codes carry nonzero rates, convertCurrency returns
the amount times the ratio of the target and source rates rounded to 2
decimal places, and is the exact identity (no rounding) when the two codes
coincide. -/
theorem convertCurrency_contract (rates : Rates) (a rf rt : ℚ) (f t : String)
    (hf : rates f = some rf) (hf0 : rf ≠ 0) (ht : rates t = some rt) (ht0 : rt ≠ 0)
    (hne : f ≠ t) :
    convertCurrency rates a f t = roundTo2 (a * (rt / rf)) ∧
    convertCurrency rates a f f = a ∧ convertCurrency rates a t t = a := by
  refine ⟨?_, by simp [convertCurrency], by simp [convertCurrency]⟩
  simp only [convertCurrency, if_neg hne, rateOr1_of_some rates f rf hf hf0,
    rateOr1_of_some rates t rt ht ht0]
  rw [div_mul_eq_mul_div, mul_div_assoc]

/-- Witness for claim C1 at amount 7, EUR to RON, on the default table. -/
theorem convertCurrency_contract_witness :
    convertCurrency defaultExchangeRates 7 EUR RON = roundTo2 (7 * ((456/100) / (92/100))) ∧
    convertCurrency defaultExchangeRates 7 EUR EUR = 7 ∧
    convertCurrency defaultExchangeRates 7 RON RON = 7 :=
  convertCurrency_contract defaultExchangeRates 7 (92/100) (456/100) EUR RON
    (by simp [defaultExchangeRates, EUR, USD]) (by norm_num)
    (by simp [defaultExchangeRates, RON, USD, EUR]) (by norm_num)
    (by decide)

/-- Claim C4 counterexample: the round trip of the positive amount 0.02
from RON to USD and back on the default table yields 0, which differs
from the original amount by 0.02, more than the 0.01 tolerance of two
roundings to 2 decimal places. -/
theorem convertCurrency_roundtrip_cex :
    (0:ℚ) < 2/100 ∧
    convertCurrency defaultExchangeRates
      (convertCurrency defaultExchangeRates (2/100) RON USD) USD RON = 0 ∧
    ¬ (|convertCurrency defaultExchangeRates
        (convertCurrency defaultExchangeRates (2/100) RON USD) USD RON - 2/100| ≤ 1/100) := by
  have h1 : convertCurrency defaultExchangeRates (2/100) RON USD = 0 := by
    rw [convertCurrency]
    simp [RON, USD, rateOr1, defaultExchangeRates, EUR]
    rw [roundTo2]
    norm_num
  have h2 : convertCurrency defaultExchangeRates 0 USD RON = 0 := by
    rw [convertCurrency]
    simp [RON, USD, rateOr1, defaultExchangeRates, EUR]
    rw [roundTo2]
    norm_num
  refine ⟨by norm_num, ?_, ?_⟩
  · rw [h1, h2]
  · rw [h1, h2]
    have habs : |(0:ℚ) - 2/100| = 1/50 := by
      rw [abs_of_nonpos (by norm_num)]
      norm_num
    rw [habs]
    norm_num

/-- Claim C4 (amended): for positive rates in the table and distinct codes,
the round trip differs from the original amount by at most the two
half-ulps of the 2-decimal roundings, the first scaled back into the
source currency: 0.005 * (rate f / rate t) + 0.005. -/
theorem convertCurrency_roundtrip (rates : Rates) (a rf rt : ℚ) (f t : String)
    (hf : rates f = some rf) (hrf : 0 < rf) (ht : rates t = some rt) (hrt : 0 < rt)
    (hne : f ≠ t) :
    |convertCurrency rates (convertCurrency rates a f t) t f - a| ≤
      1/200 * (rf / rt) + 1/200 := by
  have hrf0 : rf ≠ 0 := ne_of_gt hrf
  have hrt0 : rt ≠ 0 := ne_of_gt hrt
  have h1 : rateOr1 rates f = rf := rateOr1_of_some rates f rf hf hrf0
  have h2 : rateOr1 rates t = rt := rateOr1_of_some rates t rt ht hrt0
  have hconv1 : convertCurrency rates a f t = roundTo2 (a / rf * rt) := by
    simp only [convertCurrency, if_neg hne, h1, h2]
  have hconv2 : convertCurrency rates (roundTo2 (a / rf * rt)) t f =
      roundTo2 (roundTo2 (a / rf * rt) / rt * rf) := by
    simp only [convertCurrency, if_neg (Ne.symm hne), h1, h2]
  have e1 : |roundTo2 (a / rf * rt) - a / rf * rt| ≤ 1/200 := abs_roundTo2_sub _
  have e2 : |roundTo2 (roundTo2 (a / rf * rt) / rt * rf) -
      roundTo2 (a / rf * rt) / rt * rf| ≤ 1/200 := abs_roundTo2_sub _
  have hya : roundTo2 (a / rf * rt) / rt * rf - a =
      (roundTo2 (a / rf * rt) - a / rf * rt) * (rf / rt) := by
    field_simp
    ring
  have h3 : |roundTo2 (a / rf * rt) / rt * rf - a| ≤ 1/200 * (rf / rt) := by
    rw [hya, abs_mul, abs_of_pos (div_pos hrf hrt)]
    exact mul_le_mul_of_nonneg_right e1 (le_of_lt (div_pos hrf hrt))
  rw [hconv1, hconv2]
  calc |roundTo2 (roundTo2 (a / rf * rt) / rt * rf) - a|
      ≤ |roundTo2 (roundTo2 (a / rf * rt) / rt * rf) -
          roundTo2 (a / rf * rt) / rt * rf| +
        |roundTo2 (a / rf * rt) / rt * rf - a| := abs_sub_le _ _ _
    _ ≤ 1/200 + 1/200 * (rf / rt) := add_le_add e2 h3
    _ = 1/200 * (rf / rt) + 1/200 := by ring

/-- Witness for the amended claim C4 at amount 1, EUR to USD and back. -/
theorem convertCurrency_roundtrip_witness :
    |convertCurrency defaultExchangeRates
      (convertCurrency defaultExchangeRates 1 EUR USD) USD EUR - 1| ≤
      1/200 * ((92/100) / 1) + 1/200 :=
  convertCurrency_roundtrip defaultExchangeRates 1 (92/100) 1 EUR USD
    (by simp [defaultExchangeRates, EUR, USD]) (by norm_num)
    (by simp [defaultExchangeRates, USD]) (by norm_num)
    (by decide)

/-- Bumping one category changes the stored value only at that category,
by exactly the added amount. -/
lemma valueAt_bumpCategory (c cur : String) (v : ℚ)
    (sums : List (String × CategorySum)) (d : String) :
    valueAt (bumpCategory c cur v sums) d = valueAt sums d + (if c = d then v else 0) := by
  induction sums with
  | nil => simp [bumpCategory, valueAt]
  | cons hd tl ih =>
      obtain ⟨k, s⟩ := hd
      by_cases hkc : k = c
      · subst hkc
        simp only [bumpCategory, if_pos rfl]
        by_cases hkd : k = d
        · simp [valueAt, hkd]
        · simp [valueAt, hkd]
      · simp only [bumpCategory, if_neg hkc]
        by_cases hkd : k = d
        · subst hkd
          have hcd : ¬ (c = k) := fun h => hkc h.symm
          simp [valueAt, hcd]
        · simp [valueAt, hkd, ih]

/-- Folding the aggregation step over a list of entries adds to each
category key exactly the sum of the converted values of the entries in
that category. -/
lemma valueAt_categorySums (rates : Rates) (target : String)
    (entries : List FinancialEntry) (acc : List (String × CategorySum)) (c : String) :
    valueAt (entries.foldl (fun sums e =>
        bumpCategory e.category e.currency (convertAmount rates target e.value e.currency) sums) acc) c =
      valueAt acc c +
      ((entries.filter fun e => e.category = c).map
        fun e => convertAmount rates target e.value e.currency).sum := by
  induction entries generalizing acc with
  | nil => simp
  | cons e es ih =>
      rw [List.foldl_cons, ih, valueAt_bumpCategory, List.filter_cons]
      by_cases h : e.category = c
      · simp [h]
        ring
      · simp [h]

/-- Claim C2: the displayed total of any category equals the sum, over the
entries whose category field equals that category, of each entry's value
converted to the display currency via convertAmount; as this holds for
every category it holds for any partition of the entries by category. -/
theorem displayedCategoryTotal_eq_converted_sum (rates : Rates) (target : String)
    (entries : List FinancialEntry) (c : String) :
    displayedCategoryTotal rates target entries c =
      ((entries.filter fun e => e.category = c).map
        fun e => convertAmount rates target e.value e.currency).sum := by
  rw [displayedCategoryTotal, categorySums, valueAt_categorySums]
  simp [valueAt]

/-- Total of an association list after a cons. -/
lemma categoryTotal_cons (k : String) (s : CategorySum) (rest : List (String × CategorySum)) :
    categoryTotal ((k, s) :: rest) = s.value + categoryTotal rest := by
  simp [categoryTotal]

/-- Bumping one category raises the grand total by the added amount. -/
lemma categoryTotal_bumpCategory (c cur : String) (v : ℚ)
    (sums : List (String × CategorySum)) :
    categoryTotal (bumpCategory c cur v sums) = categoryTotal sums + v := by
  induction sums with
  | nil => simp [bumpCategory, categoryTotal]
  | cons hd tl ih =>
      obtain ⟨k, s⟩ := hd
      by_cases hkc : k = c
      · simp only [bumpCategory, if_pos hkc, categoryTotal_cons]
        ring
      · simp only [bumpCategory, if_neg hkc, categoryTotal_cons, ih]
        ring

/-- The grand total of the category fold equals the sum of all converted
entry values. -/
lemma categoryTotal_categorySums (rates : Rates) (target : String)
    (entries : List FinancialEntry) (acc : List (String × CategorySum)) :
    categoryTotal (entries.foldl (fun sums e =>
        bumpCategory e.category e.currency (convertAmount rates target e.value e.currency) sums) acc) =
      categoryTotal acc + (entries.map fun e => convertAmount rates target e.value e.currency).sum := by
  induction entries generalizing acc with
  | nil => simp
  | cons e es ih =>
      rw [List.foldl_cons, ih, categoryTotal_bumpCategory, List.map_cons, List.sum_cons]
      ring

/-- Claim C3: the displayed net worth is the exact difference of the total
assets and the total debts in the display currency, with no rounding
beyond the per-entry conversions inside the two totals. -/
theorem dashboardNetWorth_exact (rates : Rates) (target : String)
    (assets debts : List FinancialEntry) :
    dashboardNetWorth rates target assets debts =
      dashboardTotal rates target assets - dashboardTotal rates target debts ∧
    dashboardNetWorth rates target assets debts =
      (assets.map fun e => convertAmount rates target e.value e.currency).sum -
      (debts.map fun e => convertAmount rates target e.value e.currency).sum := by
  refine ⟨rfl, ?_⟩
  rw [dashboardNetWorth, dashboardTotal, dashboardTotal, categorySums, categorySums,
    categoryTotal_categorySums, categoryTotal_categorySums]
  simp [categoryTotal]

/-- Claim C7: for two cash entries of 100 USD and 50 EUR under the rates
braces USD 1, EUR 0.92, the aggregated cash total displayed in USD is
100 plus roundTo2 of 50/0.92, that is 154.35. -/
theorem cashCategoryTotalExample :
    displayedCategoryTotal exampleRates USD [entryCashUSD, entryCashEUR] cash = 15435/100 := by
  rw [displayedCategoryTotal, categorySums]
  simp only [List.foldl_cons, List.foldl_nil, entryCashUSD, entryCashEUR]
  rw [show convertAmount exampleRates USD 100 USD = 100 by simp [convertAmount]]
  rw [show convertAmount exampleRates USD 50 EUR = 5435/100 by
    rw [convertAmount, if_neg (by decide), convertCurrency, if_neg (by decide)]
    simp [rateOr1, exampleRates, EUR, USD]
    rw [roundTo2]
    norm_num]
  simp [bumpCategory, valueAt, cash]
  norm_num

/-- Claim C9: convertCurrency is total also on codes absent from the rate
table or carrying a zero rate: the effective rate falls back to 1, the
divisor is never zero, and the function still returns a rounded number. -/
theorem convertCurrency_total_fallback (rates : Rates) (a : ℚ) (f t : String)
    (hf : rates f = none ∨ rates f = some 0) (hne : f ≠ t) :
    rateOr1 rates f = 1 ∧ rateOr1 rates t ≠ 0 ∧
    convertCurrency rates a f t = roundTo2 (a * rateOr1 rates t) := by
  have h1 : rateOr1 rates f = 1 := by
    rcases hf with h | h <;> simp [rateOr1, h]
  refine ⟨h1, rateOr1_ne_zero rates t, ?_⟩
  simp only [convertCurrency, if_neg hne, h1]
  rw [div_one]

/-- Witness for claim C9: GBP and JPY are not in the default table, yet
conversion still produces a value with the fallback rate 1. -/
theorem convertCurrency_total_fallback_witness :
    rateOr1 defaultExchangeRates GBP = 1 ∧ rateOr1 defaultExchangeRates JPY ≠ 0 ∧
    convertCurrency defaultExchangeRates 5 GBP JPY =
      roundTo2 (5 * rateOr1 defaultExchangeRates JPY) :=
  convertCurrency_total_fallback defaultExchangeRates 5 GBP JPY
    (Or.inl (by simp [defaultExchangeRates, GBP, USD, EUR, RON])) (by decide)
